import Mathlib

/-!
Verification of the controller-input subsystem of batocera-controlcenter
(`gamepads.py`) against its natural-language specification.

The Python code is shallowly embedded: dictionaries become association
lists that keep insertion order (Python 3.7+ dict semantics), machine
integers become `Nat`/`Int`, string formatting is modelled character by
character, and the GLib timer facility is modelled by an explicit state
carrying the set of live timer sources.
-/

namespace ControlCenter

/-! ### Association-list model of Python dictionaries

Python dict semantics needed here: lookup, membership, assignment
(overwrite the binding in place when the key exists, append when it
does not), deletion, and iteration in insertion order.  The dictionaries
built by the code never hold a duplicate key, so replacing the first
binding is Python assignment. -/

def dlookup {α β : Type} [DecidableEq α] : List (α × β) → α → Option β
  | [], _ => none
  | p :: t, k => if p.1 = k then some p.2 else dlookup t k

/-- Python dict assignment `d[k] = v`: overwrite in place if present, append if absent. -/
def dinsert {α β : Type} [DecidableEq α] : List (α × β) → α → β → List (α × β)
  | [], k, v => [(k, v)]
  | p :: t, k, v => if p.1 = k then (k, v) :: t else p :: dinsert t k v

/-- Python `del d[k]` (also used for bulk removal of live timer sources). -/
def ddelete {α β : Type} [DecidableEq α] (l : List (α × β)) (k : α) : List (α × β) :=
  l.filter (fun p => decide (p.1 ≠ k))

/-! ### `GamePads.compute_guid` (gamepads.py lines 210-221)

The Python builds a hex string: for each of bus, vendor, product, version
it appends `n.to_bytes(2, byteorder='little').hex()` and then the literal
`"0000"`.  `to_bytes(2, 'little')` yields the bytes `[n % 256, n / 256]`
(and raises OverflowError when `n ≥ 2^16`, so the embedding is stated for
16-bit inputs), and `bytes.hex()` prints each byte as two lowercase hex
digits. -/

/-- One lowercase hex digit, as produced by Python `bytes.hex()`. -/
def hexDigit (n : Nat) : Char :=
  if n < 10 then Char.ofNat (48 + n) else Char.ofNat (87 + n)

/-- Hex rendering of a single byte (two lowercase digits). -/
def byteHex (b : Nat) : String :=
  String.mk [hexDigit (b / 16), hexDigit (b % 16)]

/-- Hex rendering of a byte list, as `bytes.hex()`. -/
def bytesHex : List Nat → String
  | [] => ""
  | b :: t => byteHex b ++ bytesHex t

/-- Python `n.to_bytes(2, byteorder='little')` for `n < 2^16`. -/
def toBytes2LE (n : Nat) : List Nat := [n % 256, n / 256]

/-- `GamePads.compute_guid`: the accumulated string
`x += bus.to_bytes(2,'little').hex(); x += "0000"; ...` for the four fields. -/
def compute_guid (bus vendor product version : Nat) : String :=
  bytesHex (toBytes2LE bus) ++ "0000" ++ bytesHex (toBytes2LE vendor) ++ "0000" ++
    bytesHex (toBytes2LE product) ++ "0000" ++ bytesHex (toBytes2LE version) ++ "0000"

/-- The 16-byte layout stated by the specification: bus, vendor, product,
version, each as a little-endian 16-bit field immediately followed by two
zero bytes, in that order.  (Spec-side definition, for comparison with
`compute_guid`.) -/
def guidLayoutBytes (bus vendor product version : Nat) : List Nat :=
  [bus % 256, bus / 256 % 256, 0, 0,
   vendor % 256, vendor / 256 % 256, 0, 0,
   product % 256, product / 256 % 256, 0, 0,
   version % 256, version / 256 % 256, 0, 0]

/-! ### ES input configuration documents

`load_es_dbpads` returns a list of parsed XML roots; each root's
`inputConfig` children carry `deviceGUID` / `deviceName` attributes and a
list of `input` children.  XML attributes may be absent (`Option`); the
integer-valued attributes are modelled after Python's `int(...)`
conversion, which is outside the claims' scope for malformed text. -/

/-- One child element of an `inputConfig` node.  `tag` is the XML tag
(only `"input"` children are parsed), the remaining fields are the
`name`, `type`, `code`, `value` and `id` attributes. -/
structure ESInput where
  tag : String
  name : Option String
  type : Option String
  code : Option Int
  value : Option Int
  id : Option Int
deriving DecidableEq

/-- One `inputConfig` element of a document. -/
structure InputConfig where
  deviceGUID : Option String
  deviceName : Option String
  inputs : List ESInput
deriving DecidableEq

/-- `pads_config.find(path)` for an attribute-filtered path: the first
`inputConfig` child matching the predicate, scanning documents in order
(`GamePads._find_input_config` loops over `pads_configs` and calls
`find` on each). -/
def firstDoc (p : InputConfig → Bool) : List (List InputConfig) → Option InputConfig
  | [] => none
  | d :: ds =>
    match d.find? p with
    | some e => some e
    | none => firstDoc p ds

/-- `GamePads._find_input_config` (gamepads.py lines 268-287): exact
(guid, name) match first, then guid-only, then name-only, else `None`. -/
def findInputConfig (padsConfigs : List (List InputConfig)) (name guid : String) :
    Option InputConfig :=
  match firstDoc (fun e => e.deviceGUID == some guid && e.deviceName == some name) padsConfigs with
  | some e => some e
  | none =>
    match firstDoc (fun e => e.deviceGUID == some guid) padsConfigs with
    | some e => some e
    | none => firstDoc (fun e => e.deviceName == some name) padsConfigs

/-! ### `GamePads._find_best_controller_mapping` (gamepads.py lines 223-266)

The mapping is the nested dict `{type: {code: {value: name}}}`. -/

/-- The nested mapping dictionary `{type: {code: {value: name}}}`. -/
abbrev Mapping : Type := List (String × List (Int × List (Int × String)))

/-- Triple lookup `mappings[type][code][value]`, `none` when any level is absent. -/
def mlookup (m : Mapping) (ty : String) (c : Int) (v : Int) : Option String :=
  match dlookup m ty with
  | some tm =>
    match dlookup tm c with
    | some cm => dlookup cm v
    | none => none
  | none => none

/-- The hat rewrite of lines 239-246: the synthetic code is `16 + int(id)`
plus one for the vertical directions, and the value is forced to `-1` for
up/left and `+1` otherwise.  A `hat` entry with no `id` attribute makes
the Python raise (`int(None)`), which no claim reaches, so it yields no
code/value here. -/
def hatCodeValue (e : ESInput) : Option Int × Option Int :=
  match e.id with
  | some hid =>
    let c : Int := 16 + hid + (if e.name = some "up" ∨ e.name = some "down" then 1 else 0)
    let v : Int := if e.name = some "up" ∨ e.name = some "left" then -1 else 1
    (some c, some v)
  | none => (none, none)

/-- The mirror writes of lines 256-265: after recording an `axis` entry,
each of the four stick-direction primitives unconditionally assigns the
opposite name at `-1 * value`. -/
def mirrorChain (cm1 : List (Int × String)) (nm : String) (v : Int) : List (Int × String) :=
  let cm2 := if nm = "joystick1left" then dinsert cm1 (-1 * v) "joystick1right" else cm1
  let cm3 := if nm = "joystick1up" then dinsert cm2 (-1 * v) "joystick1down" else cm2
  let cm4 := if nm = "joystick2left" then dinsert cm3 (-1 * v) "joystick2right" else cm3
  if nm = "joystick2up" then dinsert cm4 (-1 * v) "joystick2down" else cm4

/-- Lines 250-265: record `name` at `mappings[type][code][value]` unless
that value is already bound (first declaration wins), creating the nested
dictionaries as needed; `axis` entries then get the mirror writes. -/
def recordInput (m : Mapping) (nm ty : String) (c v : Int) : Mapping :=
  let tm := (dlookup m ty).getD []
  let cm := (dlookup tm c).getD []
  if (dlookup cm v).isSome then m
  else
    let cm1 := dinsert cm v nm
    let cmFinal := if ty = "axis" then mirrorChain cm1 nm v else cm1
    dinsert m ty (dinsert tm c cmFinal)

/-- Processing of one `input` child of the matched `inputConfig` (the body
of the `for input in input_config` loop, lines 232-265).  An entry is
recorded only when name, type, code and value are all present after the
hat rewrite. -/
def processInput (m : Mapping) (e : ESInput) : Mapping :=
  if e.tag = "input" then
    let codeValue : Option Int × Option Int :=
      if e.type = some "hat" then hatCodeValue e else (e.code, e.value)
    match e.name, e.type, codeValue.1, codeValue.2 with
    | some nm, some ty, some c, some v => recordInput m nm ty c v
    | _, _, _, _ => m
  else m

/-- The parse loop over all children of the matched `inputConfig`. -/
def parseInputs (l : List ESInput) : Mapping := l.foldl processInput []

/-- `GamePads._find_best_controller_mapping`: resolve the document entry
by guid and name, then parse it; `None` when no entry matches. -/
def findBestControllerMapping (padsConfigs : List (List InputConfig)) (name : String)
    (bus vendor product version : Nat) : Option Mapping :=
  match findInputConfig padsConfigs name (compute_guid bus vendor product version) with
  | some e => some (parseInputs e.inputs)
  | none => none

/-! ### Continuous-action scheduler (gamepads.py lines 27-29, 79-138)

The GLib timer facility is modelled explicitly: `live` is the list of
this subsystem's live timer sources as `(source id, action)` pairs,
`nextId` generates fresh source ids (`GLib.timeout_add` returns a fresh
id, `GLib.source_remove id` destroys the source).  `timers` and
`callbacks` are the `_continuous_timers` / `_continuous_callbacks`
dictionaries (the callback value is the single consumer function, so only
the key set is kept), and `enabled` is `_continuous_actions_enabled`. -/

structure GPState where
  enabled : Bool
  timers : List (String × Nat)
  callbacks : List String
  nextId : Nat
  live : List (Nat × String)
deriving DecidableEq

/-- The state after `GamePads.__init__`: flags false, dictionaries empty,
no live timer sources. -/
def initialGPState : GPState :=
  { enabled := false, timers := [], callbacks := [], nextId := 0, live := [] }

/-- Observable effects of one call into the subsystem:
`GLib.idle_add(callback, action)` (an action delivered to the consumer),
`GLib.timeout_add(interval, ...)` (a repeat timer source armed), and
`GLib.source_remove(id)` (a timer source cancelled). -/
inductive Out where
  | deliver (action : String)
  | srcAdd (id : Nat) (interval : Nat) (action : String)
  | srcRemove (id : Nat)
deriving DecidableEq

/-- The interval selection of `_start_continuous_action` (lines 87-94). -/
def intervalFor (action : String) : Nat :=
  if action = "pan_up" ∨ action = "pan_down" ∨ action = "pan_left" ∨ action = "pan_right" then 100
  else if action = "axis_up" ∨ action = "axis_down" then 200
  else if action = "axis_left" ∨ action = "axis_right" then 300
  else 150

/-- `_should_use_continuous_action` (lines 101-107). -/
def shouldUseContinuousAction (name : String) : Bool :=
  name ∈ ["joystick1up", "joystick1down", "joystick1left", "joystick1right",
          "joystick2up", "joystick2down", "joystick2left", "joystick2right",
          "up", "down", "left", "right"]

/-- `_stop_continuous_action` (lines 125-131): if the action has a timer,
remove its GLib source and delete the dictionary entry; independently
delete the callback entry. -/
def stopContinuousAction (s : GPState) (action : String) : GPState × List Out :=
  match dlookup s.timers action with
  | some id =>
    ({ s with
        live := s.live.filter (fun p => decide (p.1 ≠ id))
        timers := ddelete s.timers action
        callbacks := s.callbacks.filter (fun a => decide (a ≠ action)) },
      [Out.srcRemove id])
  | none =>
    ({ s with callbacks := s.callbacks.filter (fun a => decide (a ≠ action)) }, [])

/-- `_start_continuous_action` (lines 79-99): stop any existing timer for
this action, deliver the action immediately, then arm a fresh repeat
timer and record it. -/
def startContinuousAction (s : GPState) (action : String) : GPState × List Out :=
  let s1 := (stopContinuousAction s action).1
  let o1 := (stopContinuousAction s action).2
  let id := s1.nextId
  let s2 : GPState :=
    { s1 with
        nextId := id + 1
        live := s1.live ++ [(id, action)]
        timers := dinsert s1.timers action id
        callbacks := if action ∈ s1.callbacks then s1.callbacks else s1.callbacks ++ [action] }
  (s2, o1 ++ [Out.deliver action, Out.srcAdd id (intervalFor action) action])

/-- `_stop_all_continuous_actions` (lines 133-138): remove every tracked
source, then clear both dictionaries. -/
def stopAllContinuousActions (s : GPState) : GPState × List Out :=
  ({ s with
      live := s.live.filter (fun p => decide (p.1 ∉ s.timers.map Prod.snd))
      timers := []
      callbacks := [] },
    s.timers.map (fun q => Out.srcRemove q.2))

/-- `enable_continuous_actions` (lines 109-111). -/
def enableContinuousActions (s : GPState) : GPState := { s with enabled := true }

/-- `disable_continuous_actions` (lines 113-116). -/
def disableContinuousActions (s : GPState) : GPState × List Out :=
  stopAllContinuousActions { s with enabled := false }

/-- `_continuous_action_tick` (lines 118-123), fired by the live source
`(id, action)`: when the action is still tracked the callback is posted
and the timer continues; otherwise the tick returns `False` and GLib
destroys the firing source. -/
def continuousActionTick (s : GPState) (id : Nat) (action : String) : GPState × List Out :=
  if (dlookup s.timers action).isSome then (s, [Out.deliver action])
  else ({ s with live := s.live.filter (fun p => decide (p.1 ≠ id)) }, [])

/-! ### The listen session and `_handle_event` (gamepads.py lines 289-493) -/

/-- The `actions` dictionary of `listen` (lines 303-320). -/
def actionsList : List (String × String) :=
  [("b", "activate"), ("a", "back"),
   ("up", "axis_up"), ("down", "axis_down"), ("left", "axis_left"), ("right", "axis_right"),
   ("joystick1up", "axis_up"), ("joystick1down", "axis_down"),
   ("joystick1left", "axis_left"), ("joystick1right", "axis_right"),
   ("joystick2up", "pan_up"), ("joystick2down", "pan_down"),
   ("joystick2left", "pan_left"), ("joystick2right", "pan_right"),
   ("pageup", "previous_tab"), ("pagedown", "next_tab")]

/-- Deadzone bound computation of `listen` (lines 343-356) for one mapped
axis with reported range `[amin, amax]`.  `relax` is the calibration
entry: `some c` when the axis appears in the relaxed-values cache with
`centered = c`, `none` when absent; the centered branch is taken exactly
when `code in relaxValues and relaxValues[code]["centered"]`.  Python
`//` is floor division, `Int.fdiv`. -/
def axisBounds (amin amax : Int) (relax : Option Bool) : Int × Int :=
  let center := (amax + amin).fdiv 2
  if relax = some true then
    let threshold := (amax - amin).fdiv 4
    (amin + threshold, amax - threshold)
  else
    (amin - 1, center)

/-- Initial discretized axis state (lines 358-365): the current raw value
against the bounds just computed. -/
def initialAxisValue (bornemin bornemax current : Int) : Int :=
  if current < bornemin then -1 else if current > bornemax then 1 else 0

/-- One raw evdev event: `event.type`, `event.code`, `event.value`
(`EV_KEY = 1`, `EV_ABS = 3`). -/
structure Event where
  etype : Nat
  code : Int
  value : Int
deriving DecidableEq

/-- Per-session worker state for one device: the scheduler state plus
`axis_states[device.fd]` (the per-code last discretized value). -/
structure Session where
  gp : GPState
  axisStates : List (Int × Int)
deriving DecidableEq

/-- The hat-release loop (lines 415-423): for every value mapped on this
hat code, if its name is a known action on the continuous allow-list,
stop that action's timer. -/
def stopHatActions (gp : GPState) (acts : List (String × String)) :
    List (Int × String) → GPState × List Out
  | [] => (gp, [])
  | (_, nm) :: rest =>
    match dlookup acts nm with
    | some act =>
      if shouldUseContinuousAction nm then
        let gp1 := (stopContinuousAction gp act).1
        let o1 := (stopContinuousAction gp act).2
        ((stopHatActions gp1 acts rest).1, o1 ++ (stopHatActions gp1 acts rest).2)
      else stopHatActions gp acts rest
    | none => stopHatActions gp acts rest

/-- The axis branch of `_handle_event` (lines 424-492), entered with the
value dictionary `mapping["axis"][event.code]`, the bounds and the stored
state already looked up.  Returns the new scheduler state, the new
discretized axis state and the emitted effects. -/
def handleAxis (gp : GPState) (acts : List (String × String)) (vmap : List (Int × String))
    (bornemin bornemax oldValue value : Int) : GPState × Int × List Out :=
  let axisValue : Int := if value < bornemin then -1 else if value > bornemax then 1 else 0
  if axisValue ≠ 0 ∧ oldValue = 0 then
    match dlookup vmap axisValue with
    | some nm =>
      match dlookup acts nm with
      | some act =>
        if gp.enabled ∧ shouldUseContinuousAction nm then
          ((startContinuousAction gp act).1, axisValue, (startContinuousAction gp act).2)
        else (gp, axisValue, [Out.deliver act])
      | none => (gp, axisValue, [])
    | none => (gp, axisValue, [])
  else if axisValue = 0 ∧ oldValue ≠ 0 then
    match dlookup vmap oldValue with
    | some nm =>
      match dlookup acts nm with
      | some act =>
        if gp.enabled ∧ shouldUseContinuousAction nm then
          ((stopContinuousAction gp act).1, axisValue, (stopContinuousAction gp act).2)
        else (gp, axisValue, [])
      | none => (gp, axisValue, [])
    | none => (gp, axisValue, [])
  else if axisValue ≠ 0 ∧ oldValue ≠ 0 ∧ axisValue ≠ oldValue then
    let stopOld : GPState × List Out :=
      match dlookup vmap oldValue with
      | some onm =>
        match dlookup acts onm with
        | some oact =>
          if gp.enabled ∧ shouldUseContinuousAction onm then stopContinuousAction gp oact
          else (gp, [])
        | none => (gp, [])
      | none => (gp, [])
    let gp1 := stopOld.1
    let o1 := stopOld.2
    match dlookup vmap axisValue with
    | some nm =>
      match dlookup acts nm with
      | some act =>
        if gp1.enabled ∧ shouldUseContinuousAction nm then
          ((startContinuousAction gp1 act).1, axisValue, o1 ++ (startContinuousAction gp1 act).2)
        else (gp1, axisValue, o1 ++ [Out.deliver act])
      | none => (gp1, axisValue, o1)
    | none => (gp1, axisValue, o1)
  else (gp, axisValue, [])

/-- `GamePads._handle_event` (lines 393-493) for one device.  `infos` is
`axis_infos[device.fd]` (code to deadzone bounds).  Buttons with a
nonzero value post the mapped action; zero-valued key events fall
through with no effect.  `EV_ABS` codes at 16 and above are hats,
below 16 axes. -/
def handleEvent (s : Session) (m : Mapping) (infos : List (Int × (Int × Int)))
    (acts : List (String × String)) (ev : Event) : Session × List Out :=
  if m.isEmpty then (s, [])
  else if ev.etype = 1 then
    if ev.value ≠ 0 then
      match mlookup m "button" ev.code ev.value with
      | some nm =>
        match dlookup acts nm with
        | some act => (s, [Out.deliver act])
        | none => (s, [])
      | none => (s, [])
    else (s, [])
  else if ev.etype = 3 then
    if 16 ≤ ev.code ∧ ev.value ≠ 0 then
      match mlookup m "hat" ev.code ev.value with
      | some nm =>
        match dlookup acts nm with
        | some act =>
          if s.gp.enabled ∧ shouldUseContinuousAction nm then
            ({ s with gp := (startContinuousAction s.gp act).1 }, (startContinuousAction s.gp act).2)
          else (s, [Out.deliver act])
        | none => (s, [])
      | none => (s, [])
    else if 16 ≤ ev.code ∧ ev.value = 0 then
      match dlookup m "hat" with
      | some hm =>
        match dlookup hm ev.code with
        | some vmap =>
          if s.gp.enabled then
            ({ s with gp := (stopHatActions s.gp acts vmap).1 }, (stopHatActions s.gp acts vmap).2)
          else (s, [])
        | none => (s, [])
      | none => (s, [])
    else
      match dlookup m "axis" with
      | some am =>
        match dlookup am ev.code with
        | some vmap =>
          match dlookup s.axisStates ev.code, dlookup infos ev.code with
          | some oldValue, some info =>
            let r := handleAxis s.gp acts vmap info.1 info.2 oldValue ev.value
            ({ gp := r.1, axisStates := dinsert s.axisStates ev.code r.2.1 }, r.2.2)
          | _, _ => (s, [])
        | none => (s, [])
      | none => (s, [])
  else (s, [])

/-! ### `GamePads.dev2int` (gamepads.py lines 34-39)

`re.match(r"^/dev/input/event([0-9]*)$", dev)`: the pattern is a literal
prefix followed by zero or more digits; without `re.MULTILINE` the final
`$` matches at the end of the string or just before one trailing newline.
`int(matches.group(1))` raises `ValueError` when the captured group is
empty, so the embedding returns `Except`. -/
/-- The character sequence the anchored pattern is matched against: the
string itself, or the string without its final newline (Python `$`
semantics without `re.MULTILINE`). -/
def regexTarget (s : String) : List Char :=
  if s.data.getLast? = some '\n' then s.data.dropLast else s.data

def dev2int (s : String) : Except Unit (Option Nat) :=
  let cs := regexTarget s
  if "/dev/input/event".data.isPrefixOf cs ∧ (cs.drop 16).all Char.isDigit then
    let g := cs.drop 16
    if g.isEmpty then Except.error ()
    else Except.ok (some (g.foldl (fun n c => 10 * n + (c.toNat - 48)) 0))
  else Except.ok none

deriving instance DecidableEq for Except

/-! ### Invariants used by the claims -/

/-- The four stick-direction primitives paired with their mirrored
opposite names (gamepads.py lines 258-265). -/
def mirrorList : List (String × String) :=
  [("joystick1left", "joystick1right"), ("joystick1up", "joystick1down"),
   ("joystick2left", "joystick2right"), ("joystick2up", "joystick2down")]

/-- A value dictionary of one axis code is mirror-sound when every bound
stick-direction primitive has its opposite name bound at the negated
value. -/
def MirrorSoundCol (cm : List (Int × String)) : Prop :=
  ∀ v nm opp, (nm, opp) ∈ mirrorList → dlookup cm v = some nm →
    dlookup cm (-v) = some opp

/-- Mirror-soundness of a whole mapping: every axis column is mirror-sound. -/
def MirrorSound (m : Mapping) : Prop :=
  ∀ c v nm opp, (nm, opp) ∈ mirrorList → mlookup m "axis" c v = some nm →
    mlookup m "axis" c (-v) = some opp

/-- Scheduler invariant: every live timer source of the subsystem is the
one its action's `_continuous_timers` entry tracks, live source ids are
below the id generator and pairwise distinct, and every tracked id is
below the generator.  It entails that no action name ever has two live
timer sources. -/
def SchedInv (s : GPState) : Prop :=
  (∀ q ∈ s.live, dlookup s.timers q.2 = some q.1) ∧
  (∀ q ∈ s.live, q.1 < s.nextId) ∧
  (s.live.map Prod.fst).Nodup ∧
  (∀ q ∈ s.timers, q.2 < s.nextId)

/-! ## Theorems

Supporting lemmas first, then one theorem per claim (witnesses and
counterexamples next to their claim's theorem). -/

theorem dlookup_dinsert_self {α β : Type} [DecidableEq α]
    (l : List (α × β)) (k : α) (v : β) : dlookup (dinsert l k v) k = some v := by
  induction l with
  | nil => simp [dinsert, dlookup]
  | cons p t ih =>
    by_cases h : p.1 = k
    · simp [dinsert, dlookup, h]
    · simp [dinsert, dlookup, h, ih]

theorem dlookup_dinsert_ne {α β : Type} [DecidableEq α]
    (l : List (α × β)) (k k' : α) (v : β) (h : k' ≠ k) :
    dlookup (dinsert l k v) k' = dlookup l k' := by
  induction l with
  | nil => simp [dinsert, dlookup, Ne.symm h]
  | cons p t ih =>
    by_cases hp : p.1 = k
    · simp [dinsert, dlookup, hp, Ne.symm h]
    · rw [show dinsert (p :: t) k v = p :: dinsert t k v from by simp [dinsert, hp]]
      simp only [dlookup]
      by_cases hp' : p.1 = k' <;> simp [hp', ih]

theorem ddelete_cons_pos {α β : Type} [DecidableEq α]
    (p : α × β) (t : List (α × β)) (k : α) (h : p.1 = k) :
    ddelete (p :: t) k = ddelete t k := by
  simp [ddelete, List.filter_cons, h]

theorem ddelete_cons_neg {α β : Type} [DecidableEq α]
    (p : α × β) (t : List (α × β)) (k : α) (h : p.1 ≠ k) :
    ddelete (p :: t) k = p :: ddelete t k := by
  simp [ddelete, List.filter_cons, h]

theorem dlookup_ddelete_self {α β : Type} [DecidableEq α]
    (l : List (α × β)) (k : α) : dlookup (ddelete l k) k = none := by
  induction l with
  | nil => rfl
  | cons p t ih =>
    by_cases h : p.1 = k
    · rw [ddelete_cons_pos p t k h]; exact ih
    · rw [ddelete_cons_neg p t k h]
      simp only [dlookup, h, if_false]
      exact ih

theorem dlookup_ddelete_ne {α β : Type} [DecidableEq α]
    (l : List (α × β)) (k k' : α) (h : k' ≠ k) :
    dlookup (ddelete l k) k' = dlookup l k' := by
  induction l with
  | nil => rfl
  | cons p t ih =>
    by_cases hp : p.1 = k
    · have hne : p.1 ≠ k' := by rw [hp]; exact Ne.symm h
      rw [ddelete_cons_pos p t k hp, ih]
      simp [dlookup, hne]
    · rw [ddelete_cons_neg p t k hp]
      simp only [dlookup]
      by_cases hp' : p.1 = k' <;> simp [hp', ih]

theorem bytesHex_append (l1 l2 : List Nat) :
    bytesHex (l1 ++ l2) = bytesHex l1 ++ bytesHex l2 := by
  induction l1 with
  | nil => simp [bytesHex]
  | cons b t ih => simp [bytesHex, ih, String.append_assoc]

/-- C1: for every tuple of 16-bit non-negative integers, `compute_guid` is
deterministic (identical tuples yield identical identifiers) and produces
exactly the documented 16-byte layout: bus, vendor, product, version, each
as a little-endian 16-bit field immediately followed by two zero bytes, in
that order (rendered in hex, 16 bytes in all). -/
theorem compute_guid_layout (b v p r : Nat)
    (hb : b < 65536) (hv : v < 65536) (hp : p < 65536) (hr : r < 65536) :
    compute_guid b v p r = bytesHex (guidLayoutBytes b v p r) ∧
      (guidLayoutBytes b v p r).length = 16 ∧
      (∀ b2 v2 p2 r2, b = b2 → v = v2 → p = p2 → r = r2 →
        compute_guid b v p r = compute_guid b2 v2 p2 r2) := by
  refine ⟨?_, by simp [guidLayoutBytes], ?_⟩
  · have e1 : b / 256 % 256 = b / 256 := Nat.mod_eq_of_lt (by omega)
    have e2 : v / 256 % 256 = v / 256 := Nat.mod_eq_of_lt (by omega)
    have e3 : p / 256 % 256 = p / 256 := Nat.mod_eq_of_lt (by omega)
    have e4 : r / 256 % 256 = r / 256 := Nat.mod_eq_of_lt (by omega)
    have hsplit : guidLayoutBytes b v p r =
        toBytes2LE b ++ [0, 0] ++ toBytes2LE v ++ [0, 0] ++
          toBytes2LE p ++ [0, 0] ++ toBytes2LE r ++ [0, 0] := by
      simp [guidLayoutBytes, toBytes2LE, e1, e2, e3, e4]
    rw [hsplit, bytesHex_append, bytesHex_append, bytesHex_append, bytesHex_append,
        bytesHex_append, bytesHex_append, bytesHex_append]
    rw [show bytesHex [0, 0] = "0000" from by decide]
    rfl
  · intro b2 v2 p2 r2 h1 h2 h3 h4
    rw [h1, h2, h3, h4]

/-- Witness for C1 at the identifier of a standard wired controller
(bus 3, vendor 0x045e, product 0x028e, version 0x0111). -/
theorem compute_guid_layout_witness :
    compute_guid 3 1118 654 273 = bytesHex (guidLayoutBytes 3 1118 654 273) ∧
      compute_guid 3 1118 654 273 = "030000005e0400008e02000011010000" :=
  ⟨(compute_guid_layout 3 1118 654 273 (by decide) (by decide) (by decide) (by decide)).1,
    by decide⟩

theorem handleAxis_axis_value (gp : GPState) (acts : List (String × String))
    (vmap : List (Int × String)) (bornemin bornemax oldValue value : Int) :
    (handleAxis gp acts vmap bornemin bornemax oldValue value).2.1 =
      (if value < bornemin then -1 else if value > bornemax then 1 else 0) := by
  unfold handleAxis
  generalize (if value < bornemin then (-1 : Int) else if value > bornemax then 1 else 0) = d
  dsimp only
  repeat' split
  all_goals rfl

/-- C8: for every mapped axis with reported range [amin, amax], the
bounds computed at session start are `amin + (amax-amin)/4` and
`amax - (amax-amin)/4` (floor division) when the axis is classified
centered, and `amin - 1` / the center `(amin+amax)/2` otherwise; in the
non-centered case the low bound is unreachable — no raw sample at or
above `amin` ever discretizes to -1. -/
theorem axis_bounds_spec (amin amax : Int) (relax : Option Bool) :
    (relax = some true →
      axisBounds amin amax relax =
        (amin + (amax - amin).fdiv 4, amax - (amax - amin).fdiv 4)) ∧
    (relax ≠ some true →
      axisBounds amin amax relax = (amin - 1, (amin + amax).fdiv 2) ∧
      ∀ gp acts vmap oldValue value, amin ≤ value →
        (handleAxis gp acts vmap (axisBounds amin amax relax).1
          (axisBounds amin amax relax).2 oldValue value).2.1 ≠ -1) := by
  constructor
  · intro h; simp [axisBounds, h]
  · intro h
    have hb : axisBounds amin amax relax = (amin - 1, (amax + amin).fdiv 2) := by
      simp [axisBounds, h]
    refine ⟨by rw [hb, Int.add_comm amax amin], ?_⟩
    intro gp acts vmap oldValue value hv
    rw [handleAxis_axis_value, hb]
    simp only
    rw [if_neg (by omega : ¬ value < amin - 1)]
    split <;> decide

/-- Witness for C8: the centered bounds on the standard signed 16-bit
range, and the non-centered bounds on a 0-255 trigger range. -/
theorem axis_bounds_spec_witness :
    axisBounds (-32768) 32767 (some true) = (-16385, 16384) ∧
      axisBounds 0 255 none = (-1, 127) :=
  ⟨((axis_bounds_spec (-32768) 32767 (some true)).1 rfl).trans (by decide),
    ((axis_bounds_spec 0 255 none).2 (by decide)).1.trans (by decide)⟩

theorem firstDoc_sat (p : InputConfig → Bool) (docs : List (List InputConfig))
    (e : InputConfig) (h : firstDoc p docs = some e) : p e = true := by
  induction docs with
  | nil => simp [firstDoc] at h
  | cons d ds ih =>
    rw [firstDoc] at h
    cases hf : d.find? p with
    | some x => rw [hf] at h; cases h; exact List.find?_some hf
    | none => rw [hf] at h; exact ih h

theorem firstDoc_eq_none (p : InputConfig → Bool) (docs : List (List InputConfig)) :
    firstDoc p docs = none ↔ ∀ d ∈ docs, ∀ e ∈ d, ¬ p e := by
  induction docs with
  | nil => simp [firstDoc]
  | cons d ds ih =>
    rw [firstDoc]
    cases hf : d.find? p with
    | some x =>
      simp only [hf]
      constructor
      · intro h; cases h
      · intro hall
        exact absurd (List.find?_some hf)
          (hall d (List.mem_cons_self d ds) x (List.mem_of_find?_eq_some hf))
    | none =>
      have hd : ∀ e ∈ d, ¬ p e := List.find?_eq_none.mp hf
      simp only [hf, ih]
      constructor
      · intro h d' hd' e he
        rcases List.mem_cons.mp hd' with h' | h'
        · subst h'; exact hd e he
        · exact h d' h' e he
      · intro h d' hd' e he
        exact h d' (List.mem_cons_of_mem _ hd') e he

theorem firstDoc_some_of_exists (p : InputConfig → Bool) (docs : List (List InputConfig))
    (h : ∃ d ∈ docs, ∃ e ∈ d, p e) : ∃ e, firstDoc p docs = some e ∧ p e := by
  cases hf : firstDoc p docs with
  | some e => exact ⟨e, rfl, firstDoc_sat p docs e hf⟩
  | none =>
    exfalso
    obtain ⟨d, hd, e, he, hp⟩ := h
    exact (firstDoc_eq_none p docs).mp hf d hd e he hp

/-- C2: `_find_input_config` observes strict precedence over the ordered
document list: an entry matching both guid and name wins, else an entry
matching the guid alone, else an entry matching the name alone, else no
entry — and a device with no mapping is handled with an empty mapping
under which `_handle_event` does nothing (the device is inert, the
session does not abort). -/
theorem find_mapping_precedence (docs : List (List InputConfig)) (guid name : String) :
    ((∃ d ∈ docs, ∃ e ∈ d, e.deviceGUID = some guid ∧ e.deviceName = some name) →
      ∃ e, findInputConfig docs name guid = some e ∧
        e.deviceGUID = some guid ∧ e.deviceName = some name) ∧
    ((¬ ∃ d ∈ docs, ∃ e ∈ d, e.deviceGUID = some guid ∧ e.deviceName = some name) →
      (∃ d ∈ docs, ∃ e ∈ d, e.deviceGUID = some guid) →
      ∃ e, findInputConfig docs name guid = some e ∧ e.deviceGUID = some guid) ∧
    ((¬ ∃ d ∈ docs, ∃ e ∈ d, e.deviceGUID = some guid) →
      (∃ d ∈ docs, ∃ e ∈ d, e.deviceName = some name) →
      ∃ e, findInputConfig docs name guid = some e ∧ e.deviceName = some name) ∧
    ((¬ ∃ d ∈ docs, ∃ e ∈ d, e.deviceGUID = some guid) →
      (¬ ∃ d ∈ docs, ∃ e ∈ d, e.deviceName = some name) →
      findInputConfig docs name guid = none) ∧
    (∀ s infos acts ev, handleEvent s [] infos acts ev = (s, [])) := by
  have hboth : ∀ e : InputConfig,
      (e.deviceGUID == some guid && e.deviceName == some name) = true ↔
        (e.deviceGUID = some guid ∧ e.deviceName = some name) := by
    intro e; simp
  have hguid : ∀ e : InputConfig,
      (e.deviceGUID == some guid) = true ↔ e.deviceGUID = some guid := by
    intro e; simp
  have hname : ∀ e : InputConfig,
      (e.deviceName == some name) = true ↔ e.deviceName = some name := by
    intro e; simp
  refine ⟨?_, ?_, ?_, ?_, fun s infos acts ev => rfl⟩
  · intro h
    obtain ⟨e, hf, hp⟩ := firstDoc_some_of_exists
      (fun e => e.deviceGUID == some guid && e.deviceName == some name) docs (by
        obtain ⟨d, hd, e, he, hp⟩ := h
        exact ⟨d, hd, e, he, (hboth e).mpr hp⟩)
    refine ⟨e, ?_, (hboth e).mp hp⟩
    rw [findInputConfig, hf]
  · intro hno h
    have h1 : firstDoc
        (fun e => e.deviceGUID == some guid && e.deviceName == some name) docs = none := by
      rw [firstDoc_eq_none]
      intro d hd e he hp
      exact hno ⟨d, hd, e, he, (hboth e).mp hp⟩
    obtain ⟨e, hf, hp⟩ := firstDoc_some_of_exists (fun e => e.deviceGUID == some guid) docs (by
      obtain ⟨d, hd, e, he, hp⟩ := h
      exact ⟨d, hd, e, he, (hguid e).mpr hp⟩)
    refine ⟨e, ?_, (hguid e).mp hp⟩
    rw [findInputConfig, h1, hf]
  · intro hno h
    have h1 : firstDoc
        (fun e => e.deviceGUID == some guid && e.deviceName == some name) docs = none := by
      rw [firstDoc_eq_none]
      intro d hd e he hp
      exact hno ⟨d, hd, e, he, ((hboth e).mp hp).1⟩
    have h2 : firstDoc (fun e => e.deviceGUID == some guid) docs = none := by
      rw [firstDoc_eq_none]
      intro d hd e he hp
      exact hno ⟨d, hd, e, he, (hguid e).mp hp⟩
    obtain ⟨e, hf, hp⟩ := firstDoc_some_of_exists (fun e => e.deviceName == some name) docs (by
      obtain ⟨d, hd, e, he, hp⟩ := h
      exact ⟨d, hd, e, he, (hname e).mpr hp⟩)
    refine ⟨e, ?_, (hname e).mp hp⟩
    rw [findInputConfig, h1, h2, hf]
  · intro hnog hnon
    have h1 : firstDoc
        (fun e => e.deviceGUID == some guid && e.deviceName == some name) docs = none := by
      rw [firstDoc_eq_none]
      intro d hd e he hp
      exact hnog ⟨d, hd, e, he, ((hboth e).mp hp).1⟩
    have h2 : firstDoc (fun e => e.deviceGUID == some guid) docs = none := by
      rw [firstDoc_eq_none]
      intro d hd e he hp
      exact hnog ⟨d, hd, e, he, (hguid e).mp hp⟩
    have h3 : firstDoc (fun e => e.deviceName == some name) docs = none := by
      rw [firstDoc_eq_none]
      intro d hd e he hp
      exact hnon ⟨d, hd, e, he, (hname e).mp hp⟩
    rw [findInputConfig, h1, h2, h3]

/-- Witness for C2: with a name-only entry and a guid-only entry in the
first document and an exact entry in the second, the exact entry wins. -/
theorem find_mapping_precedence_witness :
    ∃ e, findInputConfig
        [[⟨none, some "Pad", []⟩, ⟨some "gg", none, []⟩], [⟨some "gg", some "Pad", []⟩]]
        "Pad" "gg" = some e ∧
      e.deviceGUID = some "gg" ∧ e.deviceName = some "Pad" :=
  (find_mapping_precedence
      [[⟨none, some "Pad", []⟩, ⟨some "gg", none, []⟩], [⟨some "gg", some "Pad", []⟩]]
      "gg" "Pad").1
    ⟨[⟨some "gg", some "Pad", []⟩], by simp, ⟨some "gg", some "Pad", []⟩, by simp, rfl, rfl⟩

/-- C4 (evaluation of the code at the failing input): a hat entry with
hat index 1 is parsed to synthetic axis code `16 + 1 (+ 1 if vertical)`,
i.e. 17 for "left" and 18 for "up" — not the `16 + 2*1 (+ 1 if vertical)`
(18 and 19) that the claim and the code's own comment ("16/17 for hat0,
18/19 for hat1") require.  The recorded values (-1 for up/left) are as
claimed. -/
theorem hat_code_at_index_one :
    mlookup (parseInputs [⟨"input", some "left", some "hat", none, some 0, some 1⟩])
        "hat" 17 (-1) = some "left" ∧
      mlookup (parseInputs [⟨"input", some "left", some "hat", none, some 0, some 1⟩])
        "hat" 18 (-1) = none ∧
      mlookup (parseInputs [⟨"input", some "up", some "hat", none, some 0, some 1⟩])
        "hat" 18 (-1) = some "up" ∧
      mlookup (parseInputs [⟨"input", some "up", some "hat", none, some 0, some 1⟩])
        "hat" 19 (-1) = none := by
  decide

/-- C6 counterexample: the claim requires every nonzero raw value on a
mapped button code to deliver a press, and every zero raw value to
release the mapped action.  With button code 304 mapped as `{1: "a"}`
(action "back"): the nonzero value 2 (an autorepeat) emits nothing at
all, and the zero value emits nothing and changes nothing even while a
"back" repeat timer is live — no release of any kind is performed. -/
theorem button_claim_counterexample :
    (handleEvent ⟨initialGPState, []⟩ [("button", [(304, [(1, "a")])])] [] actionsList
        ⟨1, 304, 2⟩).2 = [] ∧
      handleEvent ⟨⟨true, [("back", 0)], ["back"], 1, [(0, "back")]⟩, []⟩
          [("button", [(304, [(1, "a")])])] [] actionsList ⟨1, 304, 0⟩ =
        (⟨⟨true, [("back", 0)], ["back"], 1, [(0, "back")]⟩, []⟩, []) := by
  decide

/-- C10 counterexample: the claim says `dev2int` is total and never
raises, including on the boundary input "/dev/input/event", and returns
`None` exactly on strings not of the prefix-plus-digits form.  In fact
`int("")` raises ValueError on that boundary input, and the Python `$`
anchor also accepts one trailing newline, so "/dev/input/event7\n" (not
of the claimed form) parses to 7 instead of returning `None`. -/
theorem dev2int_claim_counterexample :
    dev2int "/dev/input/event" = Except.error () ∧
      dev2int "/dev/input/event7\n" = Except.ok (some 7) := by
  decide

/-- C6 (amended): for an `EV_KEY` event, a nonzero raw value whose exact
value is recorded in the button mapping for the event's code delivers a
single press of the mapped action to the consumer callback — with no
deadzone, any such nonzero value fires; a zero raw value is ignored
entirely (buttons have no release processing). -/
theorem button_decode (s : Session) (m : Mapping) (infos : List (Int × (Int × Int)))
    (acts : List (String × String)) (ev : Event) (nm act : String)
    (hm : m ≠ []) (hk : ev.etype = 1) :
    (ev.value ≠ 0 → mlookup m "button" ev.code ev.value = some nm →
      dlookup acts nm = some act →
      handleEvent s m infos acts ev = (s, [Out.deliver act])) ∧
    (ev.value = 0 → handleEvent s m infos acts ev = (s, [])) := by
  have hempty : m.isEmpty = false := by simpa [List.isEmpty_iff] using hm
  constructor
  · intro hv hl ha
    simp [handleEvent, hempty, hk, hv, hl, ha]
  · intro hv
    simp [handleEvent, hempty, hk, hv]

/-- Witness for C6 (amended) at a concrete mapped button press. -/
theorem button_decode_witness :
    handleEvent ⟨initialGPState, []⟩ [("button", [(304, [(1, "a")])])] [] actionsList
        ⟨1, 304, 1⟩ = (⟨initialGPState, []⟩, [Out.deliver "back"]) :=
  (button_decode ⟨initialGPState, []⟩ [("button", [(304, [(1, "a")])])] [] actionsList
      ⟨1, 304, 1⟩ "a" "back" (by decide) rfl).1 (by decide) (by decide) (by decide)

/-- C10 (amended): `dev2int` returns `None` exactly when the anchored
pattern does not match (the Python `$` also tolerating one trailing
newline); a match with a nonempty digit group returns the parsed event
number; a match with an empty digit group ("/dev/input/event", possibly
with a trailing newline) raises ValueError inside `int("")`. -/
theorem dev2int_behavior (s : String) :
    (¬ ("/dev/input/event".data.isPrefixOf (regexTarget s) ∧
        ((regexTarget s).drop 16).all Char.isDigit) →
      dev2int s = Except.ok none) ∧
    (("/dev/input/event".data.isPrefixOf (regexTarget s) ∧
        ((regexTarget s).drop 16).all Char.isDigit) →
      ((regexTarget s).drop 16).isEmpty = false →
      dev2int s = Except.ok
        (some (((regexTarget s).drop 16).foldl (fun n c => 10 * n + (c.toNat - 48)) 0))) ∧
    (("/dev/input/event".data.isPrefixOf (regexTarget s) ∧
        ((regexTarget s).drop 16).all Char.isDigit) →
      ((regexTarget s).drop 16).isEmpty = true →
      dev2int s = Except.error ()) := by
  refine ⟨?_, ?_, ?_⟩
  · intro h
    unfold dev2int
    dsimp only
    rw [if_neg h]
  · intro h he
    unfold dev2int
    dsimp only
    rw [if_pos h, if_neg (by simp [he])]
  · intro h he
    unfold dev2int
    dsimp only
    rw [if_pos h, if_pos he]

/-- Witness for C10 (amended) at a concrete numbered device node. -/
theorem dev2int_behavior_witness :
    dev2int "/dev/input/event12" = Except.ok (some 12) :=
  (((dev2int_behavior "/dev/input/event12").2.1 (by decide) (by decide)).trans (by decide))

theorem dlookup_some_mem {α β : Type} [DecidableEq α]
    (l : List (α × β)) (k : α) (v : β) (h : dlookup l k = some v) : (k, v) ∈ l := by
  induction l with
  | nil => cases h
  | cons p t ih =>
    obtain ⟨a, b⟩ := p
    rw [dlookup] at h
    by_cases hp : a = k
    · subst hp
      simp only [if_pos rfl] at h
      cases h
      exact List.mem_cons_self _ _
    · simp only [hp, if_false] at h
      exact List.mem_cons_of_mem _ (ih h)

theorem mem_dinsert {α β : Type} [DecidableEq α]
    (l : List (α × β)) (k : α) (v : β) (q : α × β) (h : q ∈ dinsert l k v) :
    q ∈ l ∨ q = (k, v) := by
  induction l with
  | nil => simp [dinsert] at h; exact Or.inr h
  | cons p t ih =>
    by_cases hp : p.1 = k
    · rw [show dinsert (p :: t) k v = (k, v) :: t from by simp [dinsert, hp]] at h
      rcases List.mem_cons.mp h with h' | h'
      · exact Or.inr h'
      · exact Or.inl (List.mem_cons_of_mem _ h')
    · rw [show dinsert (p :: t) k v = p :: dinsert t k v from by simp [dinsert, hp]] at h
      rcases List.mem_cons.mp h with h' | h'
      · exact Or.inl (h' ▸ List.mem_cons_self _ _)
      · rcases ih h' with h'' | h''
        · exact Or.inl (List.mem_cons_of_mem _ h'')
        · exact Or.inr h''

theorem nodup_all_eq_length_le_one {α : Type} (l : List α) (a : α)
    (hn : l.Nodup) (hall : ∀ x ∈ l, x = a) : l.length ≤ 1 := by
  match l with
  | [] => simp
  | [x] => simp
  | x :: y :: t =>
    exfalso
    have hx := hall x (List.mem_cons_self _ _)
    have hy := hall y (List.mem_cons_of_mem _ (List.mem_cons_self _ _))
    have : x ∈ y :: t := by rw [hx, ← hy]; exact List.mem_cons_self _ _
    exact (List.nodup_cons.mp hn).1 this

theorem stopContinuousAction_nextId (s : GPState) (a : String) :
    (stopContinuousAction s a).1.nextId = s.nextId := by
  cases hl : dlookup s.timers a <;> simp [stopContinuousAction, hl]

theorem stopContinuousAction_enabled (s : GPState) (a : String) :
    (stopContinuousAction s a).1.enabled = s.enabled := by
  cases hl : dlookup s.timers a <;> simp [stopContinuousAction, hl]

theorem stopContinuousAction_timers_self (s : GPState) (a : String) :
    dlookup (stopContinuousAction s a).1.timers a = none := by
  cases hl : dlookup s.timers a with
  | none => simp [stopContinuousAction, hl]
  | some id => simp [stopContinuousAction, hl, dlookup_ddelete_self]

theorem stopContinuousAction_timers_ne (s : GPState) (a b : String) (h : b ≠ a) :
    dlookup (stopContinuousAction s a).1.timers b = dlookup s.timers b := by
  cases hl : dlookup s.timers a with
  | none => simp [stopContinuousAction, hl]
  | some id => simp [stopContinuousAction, hl, dlookup_ddelete_ne s.timers a b h]

theorem sched_inv_stop (s : GPState) (a : String) (h : SchedInv s) :
    SchedInv (stopContinuousAction s a).1 := by
  obtain ⟨h1, h2, h3, h4⟩ := h
  cases hl : dlookup s.timers a with
  | none =>
    simp only [stopContinuousAction, hl, SchedInv]
    exact ⟨h1, h2, h3, h4⟩
  | some id =>
    simp only [stopContinuousAction, hl, SchedInv]
    refine ⟨?_, ?_, ?_, ?_⟩
    · intro q hq
      have hql : q ∈ s.live := List.mem_of_mem_filter hq
      have hqid : q.1 ≠ id := by simpa using List.of_mem_filter hq
      by_cases hqa : q.2 = a
      · exfalso
        have := h1 q hql
        rw [hqa, hl] at this
        exact hqid (by injection this with h'; exact h'.symm)
      · rw [dlookup_ddelete_ne s.timers a q.2 hqa]
        exact h1 q hql
    · intro q hq; exact h2 q (List.mem_of_mem_filter hq)
    · exact h3.sublist (List.Sublist.map _ (List.filter_sublist _))
    · intro q hq
      simp only [ddelete] at hq
      exact h4 q (List.mem_of_mem_filter hq)

theorem sched_inv_start (s : GPState) (a : String) (h : SchedInv s) :
    SchedInv (startContinuousAction s a).1 := by
  have hstop := sched_inv_stop s a h
  have hla := stopContinuousAction_timers_self s a
  obtain ⟨h1, h2, h3, h4⟩ := hstop
  simp only [startContinuousAction, SchedInv]
  refine ⟨?_, ?_, ?_, ?_⟩
  · intro q hq
    rcases List.mem_append.mp hq with hq' | hq'
    · have hqa : q.2 ≠ a := by
        intro hqa
        have := h1 q hq'
        rw [hqa, hla] at this
        cases this
      rw [dlookup_dinsert_ne _ _ _ _ hqa]
      exact h1 q hq'
    · have : q = ((stopContinuousAction s a).1.nextId, a) := by simpa using hq'
      subst this
      simp [dlookup_dinsert_self]
  · intro q hq
    rcases List.mem_append.mp hq with hq' | hq'
    · exact Nat.lt_succ_of_lt (h2 q hq')
    · have : q = ((stopContinuousAction s a).1.nextId, a) := by simpa using hq'
      subst this
      exact Nat.lt_succ_self _
  · rw [List.map_append, List.nodup_append]
    refine ⟨h3, by simp, ?_⟩
    intro x hx hmem
    obtain ⟨q, hq, rfl⟩ := List.mem_map.mp hx
    have hlt := h2 q hq
    simp only [List.map_cons, List.map_nil, List.mem_singleton] at hmem
    omega
  · intro q hq
    rcases mem_dinsert _ _ _ q hq with hq' | hq'
    · exact Nat.lt_succ_of_lt (h4 q hq')
    · subst hq'; exact Nat.lt_succ_self _

theorem sched_inv_stopAll (s : GPState) (h : SchedInv s) :
    SchedInv (stopAllContinuousActions s).1 := by
  obtain ⟨h1, h2, h3, h4⟩ := h
  have hlive : s.live.filter (fun q => decide (q.1 ∉ s.timers.map Prod.snd)) = [] := by
    rw [List.filter_eq_nil_iff]
    intro q hq
    have hmem : (q.2, q.1) ∈ s.timers := dlookup_some_mem _ _ _ (h1 q hq)
    simp only [decide_eq_true_eq, not_not]
    exact List.mem_map.mpr ⟨(q.2, q.1), hmem, rfl⟩
  simp only [stopAllContinuousActions, SchedInv, hlive]
  exact ⟨by simp, by simp, by simp, by simp⟩

theorem sched_inv_tick (s : GPState) (id : Nat) (a : String) (h : SchedInv s) :
    SchedInv (continuousActionTick s id a).1 := by
  obtain ⟨h1, h2, h3, h4⟩ := h
  by_cases hl : (dlookup s.timers a).isSome
  · simp only [continuousActionTick, hl, if_pos]
    exact ⟨h1, h2, h3, h4⟩
  · simp only [continuousActionTick, hl, if_false, SchedInv]
    refine ⟨?_, ?_, ?_, h4⟩
    · intro q hq; exact h1 q (List.mem_of_mem_filter hq)
    · intro q hq; exact h2 q (List.mem_of_mem_filter hq)
    · exact h3.sublist (List.Sublist.map _ (List.filter_sublist _))

theorem sched_at_most_one (s : GPState) (hinv : SchedInv s) (a : String) :
    (s.live.filter (fun q => decide (q.2 = a))).length ≤ 1 := by
  obtain ⟨h1, _, h3, _⟩ := hinv
  cases htyp : dlookup s.timers a with
  | none =>
    have : s.live.filter (fun q => decide (q.2 = a)) = [] := by
      rw [List.filter_eq_nil_iff]
      intro q hq hdec
      have hqa : q.2 = a := by simpa using hdec
      have := h1 q hq
      rw [hqa, htyp] at this
      cases this
    simp [this]
  | some id =>
    have hn : ((s.live.filter (fun q => decide (q.2 = a))).map Prod.fst).Nodup :=
      h3.sublist (List.Sublist.map _ (List.filter_sublist _))
    have hall : ∀ x ∈ (s.live.filter (fun q => decide (q.2 = a))).map Prod.fst, x = id := by
      intro x hx
      obtain ⟨q, hq, rfl⟩ := List.mem_map.mp hx
      have hql : q ∈ s.live := List.mem_of_mem_filter hq
      have hqa : q.2 = a := by simpa using List.of_mem_filter hq
      have := h1 q hql
      rw [hqa, htyp] at this
      injection this with h'
      exact h'.symm
    calc (s.live.filter (fun q => decide (q.2 = a))).length
        = ((s.live.filter (fun q => decide (q.2 = a))).map Prod.fst).length := by
          rw [List.length_map]
      _ ≤ 1 := nodup_all_eq_length_le_one _ id hn hall

theorem startContinuousAction_outs_tracked (s : GPState) (a : String) (id : Nat)
    (h : dlookup s.timers a = some id) :
    (startContinuousAction s a).2 =
      [Out.srcRemove id, Out.deliver a, Out.srcAdd s.nextId (intervalFor a) a] := by
  simp [startContinuousAction, stopContinuousAction, h]

/-- C9: at most one live continuous timer exists per action name.  The
scheduler invariant holds initially, every press (`_start_continuous_action`),
release (`_stop_continuous_action`), disable, stop and tick operation
preserves it, and it entails that the live timer sources for any action
name number at most one.  Moreover a press for an action that already has
a timer first cancels the old source, then delivers and arms the new one,
in that order. -/
theorem continuous_timer_invariant :
    SchedInv initialGPState ∧
      (∀ s a, SchedInv s → SchedInv (startContinuousAction s a).1) ∧
      (∀ s a, SchedInv s → SchedInv (stopContinuousAction s a).1) ∧
      (∀ s, SchedInv s → SchedInv (stopAllContinuousActions s).1) ∧
      (∀ s, SchedInv s → SchedInv (disableContinuousActions s).1) ∧
      (∀ s, SchedInv s → SchedInv (enableContinuousActions s)) ∧
      (∀ s id a, SchedInv s → SchedInv (continuousActionTick s id a).1) ∧
      (∀ s, SchedInv s → ∀ a, (s.live.filter (fun q => decide (q.2 = a))).length ≤ 1) ∧
      (∀ s a id, dlookup s.timers a = some id →
        (startContinuousAction s a).2 =
          [Out.srcRemove id, Out.deliver a, Out.srcAdd s.nextId (intervalFor a) a]) := by
  refine ⟨?_, sched_inv_start, sched_inv_stop, sched_inv_stopAll, ?_, ?_, sched_inv_tick,
    sched_at_most_one, startContinuousAction_outs_tracked⟩
  · exact ⟨by simp [initialGPState], by simp [initialGPState], by simp [initialGPState],
      by simp [initialGPState]⟩
  · intro s h
    obtain ⟨h1, h2, h3, h4⟩ := h
    exact sched_inv_stopAll _ ⟨h1, h2, h3, h4⟩
  · intro s h
    obtain ⟨h1, h2, h3, h4⟩ := h
    exact ⟨h1, h2, h3, h4⟩

/-- Witness for C9: pressing "axis_up" (already held, with the live
source 0 tracked) restarts rather than duplicates the timer, and the
invariant is preserved from a concretely valid state. -/
theorem continuous_timer_invariant_witness :
    SchedInv (startContinuousAction ⟨true, [("axis_up", 0)], ["axis_up"], 1, [(0, "axis_up")]⟩
        "axis_up").1 ∧
      (startContinuousAction ⟨true, [("axis_up", 0)], ["axis_up"], 1, [(0, "axis_up")]⟩
          "axis_up").2 =
        [Out.srcRemove 0, Out.deliver "axis_up", Out.srcAdd 1 200 "axis_up"] :=
  ⟨continuous_timer_invariant.2.1 ⟨true, [("axis_up", 0)], ["axis_up"], 1, [(0, "axis_up")]⟩
      "axis_up"
      ⟨by simp [dlookup], by simp, by simp, by simp⟩,
    (continuous_timer_invariant.2.2.2.2.2.2.2.2 _ "axis_up" 0 (by simp [dlookup])).trans
      (by decide)⟩

theorem stopContinuousAction_outs_tracked (s : GPState) (a : String) (id : Nat)
    (h : dlookup s.timers a = some id) :
    (stopContinuousAction s a).2 = [Out.srcRemove id] := by
  simp [stopContinuousAction, h]

theorem startContinuousAction_outs_fresh (s : GPState) (a : String)
    (h : dlookup s.timers a = none) :
    (startContinuousAction s a).2 =
      [Out.deliver a, Out.srcAdd s.nextId (intervalFor a) a] := by
  simp [startContinuousAction, stopContinuousAction, h]

/-- C3: on an axis event for a mapped code with stored state `oldValue`
and bounds `bornemin`/`bornemax`, the raw sample discretizes to -1 below
the low bound, +1 above the high bound and 0 otherwise (and is stored);
a transition from 0 to nonzero delivers a press of the new action; a
transition from nonzero to 0 (with continuous delivery enabled and the
old action repeating) cancels exactly the old action's timer; a direct
sign flip cancels the old action's timer and then presses the new action,
in that order; and an event whose discretized value equals the stored
state emits nothing. -/
theorem axis_decode_transitions (gp : GPState) (acts : List (String × String))
    (vmap : List (Int × String)) (bornemin bornemax oldValue value d : Int)
    (hd : (if value < bornemin then (-1 : Int) else if value > bornemax then 1 else 0) = d) :
    ((handleAxis gp acts vmap bornemin bornemax oldValue value).2.1 = d) ∧
    (d = oldValue →
      handleAxis gp acts vmap bornemin bornemax oldValue value = (gp, oldValue, [])) ∧
    (∀ nm act, oldValue = 0 → d ≠ 0 → dlookup vmap d = some nm →
      dlookup acts nm = some act →
      Out.deliver act ∈ (handleAxis gp acts vmap bornemin bornemax oldValue value).2.2) ∧
    (∀ nm act id, oldValue ≠ 0 → d = 0 → dlookup vmap oldValue = some nm →
      dlookup acts nm = some act → gp.enabled = true →
      shouldUseContinuousAction nm = true → dlookup gp.timers act = some id →
      (handleAxis gp acts vmap bornemin bornemax oldValue value).2.2 = [Out.srcRemove id]) ∧
    (∀ onm oact nm act oid, oldValue ≠ 0 → d ≠ 0 → d ≠ oldValue →
      dlookup vmap oldValue = some onm → dlookup acts onm = some oact →
      dlookup vmap d = some nm → dlookup acts nm = some act →
      gp.enabled = true → shouldUseContinuousAction onm = true →
      shouldUseContinuousAction nm = true → dlookup gp.timers oact = some oid →
      (act = oact ∨ dlookup gp.timers act = none) →
      (handleAxis gp acts vmap bornemin bornemax oldValue value).2.2 =
        [Out.srcRemove oid, Out.deliver act, Out.srcAdd gp.nextId (intervalFor act) act]) := by
  refine ⟨?_, ?_, ?_, ?_, ?_⟩
  · have hval := handleAxis_axis_value gp acts vmap bornemin bornemax oldValue value
    rw [hd] at hval
    exact hval
  · intro h
    subst h
    unfold handleAxis
    rw [hd]
    simp
  · intro nm act h0 hdne hvm ha
    unfold handleAxis
    rw [hd]
    dsimp only
    rw [if_pos ⟨hdne, h0⟩]
    simp only [hvm, ha]
    by_cases hc : gp.enabled = true ∧ shouldUseContinuousAction nm = true
    · rw [if_pos hc]
      simp [startContinuousAction]
    · rw [if_neg hc]
      simp
  · intro nm act id h0 hd0 hvm ha hen hsh htm
    unfold handleAxis
    rw [hd]
    dsimp only
    rw [if_neg (fun hcon => hcon.1 hd0), if_pos ⟨hd0, h0⟩]
    simp only [hvm, ha]
    rw [if_pos ⟨hen, hsh⟩]
    exact stopContinuousAction_outs_tracked gp act id htm
  · intro onm oact nm act oid h0 hdne hne hvmold haold hvm ha hen hshold hsh htm hcase
    unfold handleAxis
    rw [hd]
    dsimp only
    rw [if_neg (fun hcon => h0 hcon.2), if_neg (fun hcon => hdne hcon.1),
      if_pos ⟨hdne, h0, hne⟩]
    simp only [hvmold, haold, hvm, ha]
    have hc1 : gp.enabled = true ∧ shouldUseContinuousAction onm = true := ⟨hen, hshold⟩
    rw [if_pos hc1]
    have hgp1en : (stopContinuousAction gp oact).1.enabled = true := by
      rw [stopContinuousAction_enabled]; exact hen
    have hc2 : (stopContinuousAction gp oact).1.enabled = true ∧
        shouldUseContinuousAction nm = true := ⟨hgp1en, hsh⟩
    rw [if_pos hc2]
    have hnone : dlookup (stopContinuousAction gp oact).1.timers act = none := by
      rcases hcase with h' | h'
      · rw [h']; exact stopContinuousAction_timers_self gp oact
      · by_cases hao : act = oact
        · rw [hao]; exact stopContinuousAction_timers_self gp oact
        · rw [stopContinuousAction_timers_ne gp oact act hao]; exact h'
    rw [stopContinuousAction_outs_tracked gp oact oid htm,
      startContinuousAction_outs_fresh _ act hnone, stopContinuousAction_nextId]
    rfl

/-- Witness for C3 at a concrete sign flip: stored state -1 with a live
"axis_left" timer (source 5), raw sample 20000 on a centered signed
16-bit axis flips to +1, cancelling the old timer and then pressing
"axis_right". -/
theorem axis_decode_transitions_witness :
    (handleAxis ⟨true, [("axis_left", 5)], ["axis_left"], 6, [(5, "axis_left")]⟩ actionsList
        [((-1 : Int), "joystick1left"), (1, "joystick1right")] (-16385) 16384 (-1) 20000).2.2 =
      [Out.srcRemove 5, Out.deliver "axis_right", Out.srcAdd 6 300 "axis_right"] :=
  ((axis_decode_transitions ⟨true, [("axis_left", 5)], ["axis_left"], 6, [(5, "axis_left")]⟩
        actionsList [((-1 : Int), "joystick1left"), (1, "joystick1right")]
        (-16385) 16384 (-1) 20000 1 (by decide)).2.2.2.2 "joystick1left" "axis_left"
      "joystick1right" "axis_right" 5 (by decide) (by decide) (by decide) (by decide)
      (by decide) (by decide) (by decide) rfl (by decide) (by decide) (by decide)
      (Or.inr (by decide))).trans (by decide)

theorem stopContinuousAction_outs_cases (s : GPState) (a : String) :
    (stopContinuousAction s a).2 = [] ∨
      ∃ id, dlookup s.timers a = some id ∧ (stopContinuousAction s a).2 = [Out.srcRemove id] := by
  cases hl : dlookup s.timers a with
  | none => exact Or.inl (by simp [stopContinuousAction, hl])
  | some id => exact Or.inr ⟨id, rfl, by simp [stopContinuousAction, hl]⟩

theorem stopHatActions_cancels (acts : List (String × String)) (vmap : List (Int × String))
    (gp : GPState) (a0 : String) (id0 : Nat)
    (ht : dlookup gp.timers a0 = some id0)
    (hmem : ∃ v0 n0, (v0, n0) ∈ vmap ∧ dlookup acts n0 = some a0 ∧
      shouldUseContinuousAction n0 = true) :
    Out.srcRemove id0 ∈ (stopHatActions gp acts vmap).2 := by
  induction vmap generalizing gp with
  | nil =>
    obtain ⟨v0, n0, h, _, _⟩ := hmem
    cases h
  | cons p rest ih =>
    obtain ⟨v, nm⟩ := p
    rw [stopHatActions]
    cases hact : dlookup acts nm with
    | none =>
      simp only [hact]
      obtain ⟨v0, n0, hmem0, ha0, hsh0⟩ := hmem
      rcases List.mem_cons.mp hmem0 with h' | h'
      · exfalso
        have : n0 = nm := (Prod.mk.injEq _ _ _ _ ▸ h').2
        rw [this, hact] at ha0
        cases ha0
      · exact ih gp ht ⟨v0, n0, h', ha0, hsh0⟩
    | some act =>
      simp only [hact]
      by_cases hsh : shouldUseContinuousAction nm = true
      · rw [if_pos hsh]
        by_cases haa : act = a0
        · refine List.mem_append.mpr (Or.inl ?_)
          rw [stopContinuousAction_outs_tracked gp act id0 (by rw [haa]; exact ht)]
          exact List.mem_singleton.mpr rfl
        · have ht1 : dlookup (stopContinuousAction gp act).1.timers a0 = some id0 := by
            rw [stopContinuousAction_timers_ne gp act a0 (fun hh => haa hh.symm)]
            exact ht
          obtain ⟨v0, n0, hmem0, ha0, hsh0⟩ := hmem
          rcases List.mem_cons.mp hmem0 with h' | h'
          · exfalso
            have : n0 = nm := (Prod.mk.injEq _ _ _ _ ▸ h').2
            rw [this, hact] at ha0
            injection ha0 with hx
            exact haa hx
          · exact List.mem_append.mpr (Or.inr (ih _ ht1 ⟨v0, n0, h', ha0, hsh0⟩))
      · rw [if_neg hsh]
        obtain ⟨v0, n0, hmem0, ha0, hsh0⟩ := hmem
        rcases List.mem_cons.mp hmem0 with h' | h'
        · exfalso
          have : n0 = nm := (Prod.mk.injEq _ _ _ _ ▸ h').2
          rw [this] at hsh0
          exact hsh hsh0
        · exact ih gp ht ⟨v0, n0, h', ha0, hsh0⟩

theorem stopHatActions_emitted (acts : List (String × String)) (vmap : List (Int × String))
    (gp : GPState) :
    ∀ id, Out.srcRemove id ∈ (stopHatActions gp acts vmap).2 →
      ∃ v n act, (v, n) ∈ vmap ∧ dlookup acts n = some act ∧
        shouldUseContinuousAction n = true ∧ dlookup gp.timers act = some id := by
  induction vmap generalizing gp with
  | nil => intro id h; simp [stopHatActions] at h
  | cons p rest ih =>
    obtain ⟨v, nm⟩ := p
    rw [stopHatActions]
    intro id h
    cases hact : dlookup acts nm with
    | none =>
      simp only [hact] at h
      obtain ⟨v', n', act', hm', ha', hs', ht'⟩ := ih gp id h
      exact ⟨v', n', act', List.mem_cons_of_mem _ hm', ha', hs', ht'⟩
    | some act =>
      simp only [hact] at h
      by_cases hsh : shouldUseContinuousAction nm = true
      · rw [if_pos hsh] at h
        rcases List.mem_append.mp h with h' | h'
        · rcases stopContinuousAction_outs_cases gp act with hc | ⟨id2, ht2, hc⟩
          · rw [hc] at h'; cases h'
          · rw [hc] at h'
            have hid : Out.srcRemove id = Out.srcRemove id2 := List.mem_singleton.mp h'
            injection hid with hid2
            subst hid2
            exact ⟨v, nm, act, List.mem_cons_self _ _, hact, hsh, ht2⟩
        · obtain ⟨v', n', act', hm', ha', hs', ht'⟩ := ih _ id h'
          by_cases hae : act' = act
          · exfalso
            rw [hae, stopContinuousAction_timers_self] at ht'
            cases ht'
          · rw [stopContinuousAction_timers_ne gp act act' hae] at ht'
            exact ⟨v', n', act', List.mem_cons_of_mem _ hm', ha', hs', ht'⟩
      · rw [if_neg hsh] at h
        obtain ⟨v', n', act', hm', ha', hs', ht'⟩ := ih gp id h
        exact ⟨v', n', act', List.mem_cons_of_mem _ hm', ha', hs', ht'⟩

/-- C7 counterexample: the claim requires a zero raw value to release
only the action mapped for the code's previously active value.  Hat code
17 maps `{-1: up, +1: down}`; "up" was the previously active value (its
action "axis_up" repeats as source 3), while "axis_down" also repeats as
source 7 because joystick1down is still held (an axis press armed it).
The release loop of lines 415-423 iterates every value mapped on the
code and cancels both sources, releasing "axis_down" as well. -/
theorem hat_release_claim_counterexample :
    (handleEvent
        ⟨⟨true, [("axis_up", 3), ("axis_down", 7)], ["axis_up", "axis_down"], 8,
            [(3, "axis_up"), (7, "axis_down")]⟩, []⟩
        [("hat", [(17, [((-1 : Int), "up"), (1, "down")])])] [] actionsList
        ⟨3, 17, 0⟩).2 = [Out.srcRemove 3, Out.srcRemove 7] := by
  decide

/-- C7 (amended): a hat event with a nonzero raw value presses exactly
the action mapped for that exact value (whether or not continuous
delivery is on); a zero raw value, with continuous delivery on, cancels
the live repeat timer of every allow-listed known action mapped on that
code — in particular the previously active one — and nothing else: every
cancelled source is the live timer of such an action. -/
theorem hat_decode :
    (∀ (s : Session) (m : Mapping) (infos : List (Int × (Int × Int)))
        (acts : List (String × String)) (ev : Event) (nm act : String),
      m ≠ [] → ev.etype = 3 → 16 ≤ ev.code → ev.value ≠ 0 →
      mlookup m "hat" ev.code ev.value = some nm → dlookup acts nm = some act →
      Out.deliver act ∈ (handleEvent s m infos acts ev).2 ∧
        (∀ a, Out.deliver a ∈ (handleEvent s m infos acts ev).2 → a = act)) ∧
    (∀ (s : Session) (m : Mapping) (infos : List (Int × (Int × Int)))
        (acts : List (String × String)) (ev : Event)
        (hm : List (Int × List (Int × String))) (vmap : List (Int × String)),
      m ≠ [] → ev.etype = 3 → 16 ≤ ev.code → ev.value = 0 →
      dlookup m "hat" = some hm → dlookup hm ev.code = some vmap →
      s.gp.enabled = true →
      (∀ (v0 : Int) (n0 a0 : String) (id0 : Nat), (v0, n0) ∈ vmap →
        dlookup acts n0 = some a0 → shouldUseContinuousAction n0 = true →
        dlookup s.gp.timers a0 = some id0 →
        Out.srcRemove id0 ∈ (handleEvent s m infos acts ev).2) ∧
      (∀ id, Out.srcRemove id ∈ (handleEvent s m infos acts ev).2 →
        ∃ v n act, (v, n) ∈ vmap ∧ dlookup acts n = some act ∧
          shouldUseContinuousAction n = true ∧ dlookup s.gp.timers act = some id)) := by
  constructor
  · intro s m infos acts ev nm act hmne hk hcode hv hl ha
    have hempty : m.isEmpty = false := by simpa [List.isEmpty_iff] using hmne
    obtain ⟨et, code, val⟩ := ev
    dsimp only at hk hcode hv hl
    subst hk
    unfold handleEvent
    dsimp only
    rw [if_neg (by simp [hempty] : ¬ (m.isEmpty = true)),
      if_neg (by decide : ¬ ((3 : Nat) = 1)), if_pos (rfl : (3 : Nat) = 3),
      if_pos ⟨hcode, hv⟩]
    simp only [hl, ha]
    by_cases hc : s.gp.enabled = true ∧ shouldUseContinuousAction nm = true
    · rw [if_pos hc]
      constructor
      · simp [startContinuousAction]
      · intro a hmem
        simp only [startContinuousAction] at hmem
        rcases List.mem_append.mp hmem with h' | h'
        · rcases stopContinuousAction_outs_cases s.gp act with hcs | ⟨id2, _, hcs⟩
          · rw [hcs] at h'; cases h'
          · rw [hcs] at h'
            have := List.mem_singleton.mp h'
            cases this
        · rcases List.mem_cons.mp h' with h'' | h''
          · injection h''
          · have := List.mem_singleton.mp h''
            cases this
    · rw [if_neg hc]
      exact ⟨List.mem_singleton.mpr rfl, fun a h => by
        have := List.mem_singleton.mp h
        injection this⟩
  · intro s m infos acts ev hm vmap hmne hk hcode hv hhm hvm hen
    have hempty : m.isEmpty = false := by simpa [List.isEmpty_iff] using hmne
    obtain ⟨et, code, val⟩ := ev
    dsimp only at hk hcode hv hhm hvm
    subst hk
    unfold handleEvent
    dsimp only
    rw [if_neg (by simp [hempty] : ¬ (m.isEmpty = true)),
      if_neg (by decide : ¬ ((3 : Nat) = 1)), if_pos (rfl : (3 : Nat) = 3),
      if_neg (fun hcon => hcon.2 hv), if_pos ⟨hcode, hv⟩]
    simp only [hhm, hvm]
    rw [if_pos hen]
    exact ⟨fun v0 n0 a0 id0 hmem ha hsh ht =>
        stopHatActions_cancels acts vmap s.gp a0 id0 ht ⟨v0, n0, hmem, ha, hsh⟩,
      stopHatActions_emitted acts vmap s.gp⟩

/-- Witness for C7 (amended) at the two-live-timer state: hat code 17
mapped `{-1: up, +1: down}`, "axis_up" repeating as source 3 (the
previously active "up") and "axis_down" repeating as source 7; the
zero-value hat event cancels both sources. -/
theorem hat_decode_witness :
    Out.srcRemove 3 ∈ (handleEvent
        ⟨⟨true, [("axis_up", 3), ("axis_down", 7)], ["axis_up", "axis_down"], 8,
            [(3, "axis_up"), (7, "axis_down")]⟩, []⟩
        [("hat", [(17, [((-1 : Int), "up"), (1, "down")])])] [] actionsList
        ⟨3, 17, 0⟩).2 ∧
      Out.srcRemove 7 ∈ (handleEvent
        ⟨⟨true, [("axis_up", 3), ("axis_down", 7)], ["axis_up", "axis_down"], 8,
            [(3, "axis_up"), (7, "axis_down")]⟩, []⟩
        [("hat", [(17, [((-1 : Int), "up"), (1, "down")])])] [] actionsList
        ⟨3, 17, 0⟩).2 :=
  ⟨((hat_decode.2 ⟨⟨true, [("axis_up", 3), ("axis_down", 7)], ["axis_up", "axis_down"], 8,
          [(3, "axis_up"), (7, "axis_down")]⟩, []⟩
      [("hat", [(17, [((-1 : Int), "up"), (1, "down")])])] [] actionsList ⟨3, 17, 0⟩
      [(17, [((-1 : Int), "up"), (1, "down")])] [((-1 : Int), "up"), (1, "down")]
      (by decide) rfl (by decide) rfl (by decide) (by decide) rfl).1
      (-1) "up" "axis_up" 3 (by decide) (by decide) (by decide) (by decide)),
    ((hat_decode.2 ⟨⟨true, [("axis_up", 3), ("axis_down", 7)], ["axis_up", "axis_down"], 8,
          [(3, "axis_up"), (7, "axis_down")]⟩, []⟩
      [("hat", [(17, [((-1 : Int), "up"), (1, "down")])])] [] actionsList ⟨3, 17, 0⟩
      [(17, [((-1 : Int), "up"), (1, "down")])] [((-1 : Int), "up"), (1, "down")]
      (by decide) rfl (by decide) rfl (by decide) (by decide) rfl).1
      1 "down" "axis_down" 7 (by decide) (by decide) (by decide) (by decide))⟩

theorem mlookup_dinsert_col (m : Mapping) (ty : String) (c : Int)
    (x : List (Int × String)) (c' v' : Int) :
    mlookup (dinsert m ty (dinsert ((dlookup m ty).getD []) c x)) ty c' v' =
      if c' = c then dlookup x v' else mlookup m ty c' v' := by
  cases hmty : dlookup m ty with
  | none =>
    by_cases hcc : c' = c
    · subst hcc
      simp [mlookup, hmty, dlookup_dinsert_self]
    · simp [mlookup, hmty, dlookup_dinsert_self, dlookup_dinsert_ne _ c c' _ hcc, hcc, dlookup,
        Ne.symm hcc]
  | some tm =>
    by_cases hcc : c' = c
    · subst hcc
      simp [mlookup, hmty, dlookup_dinsert_self]
    · simp [mlookup, hmty, dlookup_dinsert_self, dlookup_dinsert_ne _ c c' _ hcc, hcc]

theorem mlookup_dinsert_other (m : Mapping) (ty : String) (c : Int)
    (x : List (Int × String)) (ty' : String) (c' v' : Int) (h : ty' ≠ ty) :
    mlookup (dinsert m ty (dinsert ((dlookup m ty).getD []) c x)) ty' c' v' =
      mlookup m ty' c' v' := by
  unfold mlookup
  rw [dlookup_dinsert_ne _ _ _ _ h]

theorem mirror_sound_col_of (m : Mapping) (h : MirrorSound m) (c : Int) :
    MirrorSoundCol ((dlookup ((dlookup m "axis").getD []) c).getD []) := by
  intro w nm opp hp hl
  cases hmty : dlookup m "axis" with
  | none =>
    rw [hmty] at hl
    simp [dlookup] at hl
  | some tm =>
    cases hmc : dlookup tm c with
    | none =>
      rw [hmty] at hl
      simp [hmc, dlookup] at hl
    | some cm =>
      rw [hmty] at hl
      simp only [Option.getD_some, hmc] at hl
      have := h c w nm opp hp (by simp [mlookup, hmty, hmc, hl])
      simp only [hmty, Option.getD_some, hmc]
      simpa [mlookup, hmty, hmc] using this

theorem mirror_col_double (cm : List (Int × String)) (v : Int) (a b : String)
    (hab : ∀ p ∈ mirrorList, (p.1 = a → p.2 = b) ∧ p.1 ≠ b)
    (hnew : dlookup cm v = none) (hcol : MirrorSoundCol cm) :
    MirrorSoundCol (dinsert (dinsert cm v a) (-1 * v) b) := by
  intro w nm' opp' hpair hl
  by_cases hw2 : w = -1 * v
  · rw [hw2, dlookup_dinsert_self] at hl
    injection hl with hb
    exact absurd hb.symm (hab (nm', opp') hpair).2
  · rw [dlookup_dinsert_ne _ _ _ _ hw2] at hl
    by_cases hw1 : w = v
    · rw [hw1, dlookup_dinsert_self] at hl
      injection hl with ha
      have hopp : opp' = b := (hab (nm', opp') hpair).1 ha.symm
      have hww : -w = -1 * v := by rw [hw1]; ring
      rw [hww, hopp]
      exact dlookup_dinsert_self _ _ _
    · rw [dlookup_dinsert_ne _ _ _ _ hw1] at hl
      have hrec := hcol w nm' opp' hpair hl
      by_cases hnwv : -w = v
      · rw [hnwv, hnew] at hrec; cases hrec
      · have hnw2 : -w ≠ -1 * v := by intro hh; apply hw1; omega
        rw [dlookup_dinsert_ne _ _ _ _ hnw2, dlookup_dinsert_ne _ _ _ _ hnwv]
        exact hrec

theorem mirror_col_insert_nonprim (cm : List (Int × String)) (v : Int) (nm : String)
    (hnm : ∀ p ∈ mirrorList, p.1 ≠ nm)
    (hnew : dlookup cm v = none) (hcol : MirrorSoundCol cm) :
    MirrorSoundCol (dinsert cm v nm) := by
  intro w nm' opp' hpair hl
  by_cases hw : w = v
  · rw [hw, dlookup_dinsert_self] at hl
    injection hl with h
    exact absurd h.symm (hnm (nm', opp') hpair)
  · rw [dlookup_dinsert_ne _ _ _ _ hw] at hl
    have hrec := hcol w nm' opp' hpair hl
    by_cases hnwv : -w = v
    · rw [hnwv, hnew] at hrec; cases hrec
    · rw [dlookup_dinsert_ne _ _ _ _ hnwv]
      exact hrec

theorem mirror_chain_sound (cm : List (Int × String)) (v : Int) (nm : String)
    (hnew : dlookup cm v = none) (hcol : MirrorSoundCol cm) :
    MirrorSoundCol (mirrorChain (dinsert cm v nm) nm v) := by
  by_cases h1 : nm = "joystick1left"
  · subst h1
    rw [show mirrorChain (dinsert cm v "joystick1left") "joystick1left" v =
        dinsert (dinsert cm v "joystick1left") (-1 * v) "joystick1right" from rfl]
    exact mirror_col_double cm v _ _ (by decide) hnew hcol
  by_cases h2 : nm = "joystick1up"
  · subst h2
    rw [show mirrorChain (dinsert cm v "joystick1up") "joystick1up" v =
        dinsert (dinsert cm v "joystick1up") (-1 * v) "joystick1down" from rfl]
    exact mirror_col_double cm v _ _ (by decide) hnew hcol
  by_cases h3 : nm = "joystick2left"
  · subst h3
    rw [show mirrorChain (dinsert cm v "joystick2left") "joystick2left" v =
        dinsert (dinsert cm v "joystick2left") (-1 * v) "joystick2right" from rfl]
    exact mirror_col_double cm v _ _ (by decide) hnew hcol
  by_cases h4 : nm = "joystick2up"
  · subst h4
    rw [show mirrorChain (dinsert cm v "joystick2up") "joystick2up" v =
        dinsert (dinsert cm v "joystick2up") (-1 * v) "joystick2down" from rfl]
    exact mirror_col_double cm v _ _ (by decide) hnew hcol
  · rw [show mirrorChain (dinsert cm v nm) nm v = dinsert cm v nm from by
      simp [mirrorChain, h1, h2, h3, h4]]
    refine mirror_col_insert_nonprim cm v nm ?_ hnew hcol
    intro p hp
    rcases (by simpa [mirrorList] using hp :
        p = ("joystick1left", "joystick1right") ∨ p = ("joystick1up", "joystick1down") ∨
          p = ("joystick2left", "joystick2right") ∨ p = ("joystick2up", "joystick2down")) with
      h | h | h | h <;> subst h
    · exact fun hh => h1 hh.symm
    · exact fun hh => h2 hh.symm
    · exact fun hh => h3 hh.symm
    · exact fun hh => h4 hh.symm

theorem mirror_sound_record (m : Mapping) (nm ty : String) (c v : Int)
    (h : MirrorSound m) : MirrorSound (recordInput m nm ty c v) := by
  unfold recordInput
  dsimp only
  by_cases hs :
      (dlookup ((dlookup ((dlookup m ty).getD []) c).getD []) v).isSome = true
  · rw [if_pos hs]; exact h
  · rw [if_neg hs]
    have hnew : dlookup ((dlookup ((dlookup m ty).getD []) c).getD []) v = none :=
      Option.not_isSome_iff_eq_none.mp hs
    by_cases hax : ty = "axis"
    · subst hax
      rw [if_pos rfl]
      intro c' w nm' opp' hpair hl
      rw [mlookup_dinsert_col] at hl
      rw [mlookup_dinsert_col]
      by_cases hcc : c' = c
      · rw [if_pos hcc] at hl ⊢
        exact mirror_chain_sound _ v nm hnew (mirror_sound_col_of m h c) w nm' opp' hpair hl
      · rw [if_neg hcc] at hl ⊢
        exact h c' w nm' opp' hpair hl
    · rw [if_neg hax]
      intro c' w nm' opp' hpair hl
      rw [mlookup_dinsert_other _ _ _ _ _ _ _ (fun hh => hax hh.symm)] at hl
      rw [mlookup_dinsert_other _ _ _ _ _ _ _ (fun hh => hax hh.symm)]
      exact h c' w nm' opp' hpair hl

theorem processInput_cases (m : Mapping) (e : ESInput) :
    processInput m e = m ∨ ∃ nm ty c v, processInput m e = recordInput m nm ty c v := by
  obtain ⟨tag, ename, etype, ecode, evalue, eid⟩ := e
  unfold processInput
  dsimp only
  by_cases htag : tag = "input"
  · rw [if_pos htag]
    cases ename with
    | none => exact Or.inl rfl
    | some nm =>
      cases etype with
      | none => exact Or.inl rfl
      | some ty =>
        by_cases hh : ty = "hat"
        · subst hh
          rw [if_pos rfl]
          simp only [hatCodeValue]
          cases eid with
          | none => exact Or.inl rfl
          | some hid => exact Or.inr ⟨nm, "hat", _, _, rfl⟩
        · rw [if_neg (fun hcon => hh (Option.some.inj hcon))]
          cases ecode with
          | none => exact Or.inl rfl
          | some c =>
            cases evalue with
            | none => exact Or.inl rfl
            | some v => exact Or.inr ⟨nm, ty, c, v, rfl⟩
  · rw [if_neg htag]; exact Or.inl rfl

theorem mirror_sound_process (m : Mapping) (e : ESInput) (h : MirrorSound m) :
    MirrorSound (processInput m e) := by
  rcases processInput_cases m e with he | ⟨nm, ty, c, v, he⟩ <;> rw [he]
  · exact h
  · exact mirror_sound_record m nm ty c v h

theorem mirror_sound_parse (l : List ESInput) : MirrorSound (parseInputs l) := by
  have hfold : ∀ m, MirrorSound m → MirrorSound (l.foldl processInput m) := by
    induction l with
    | nil => intro m hm; exact hm
    | cons e t ih => intro m hm; exact ih _ (mirror_sound_process m e hm)
  refine hfold [] ?_
  intro c v nm opp hp hl
  simp [mlookup, dlookup] at hl

/-- C5: whenever the parsed mapping of a matched document records one of
the four stick-direction primitives for an axis `(code, value)` (an entry
skipped by the first-declaration-wins duplicate guard is not recorded),
the mirrored `(code, -value)` resolves to the opposite name. -/
theorem axis_mirror (l : List ESInput) (c v : Int) (nm opp : String)
    (hpair : (nm, opp) ∈ mirrorList)
    (hrec : mlookup (parseInputs l) "axis" c v = some nm) :
    mlookup (parseInputs l) "axis" c (-v) = some opp :=
  mirror_sound_parse l c v nm opp hpair hrec

/-- Witness for C5: a document declaring only joystick1left at value -1
also resolves value +1 on the same axis code to joystick1right. -/
theorem axis_mirror_witness :
    mlookup (parseInputs
        [⟨"input", some "joystick1left", some "axis", some 0, some (-1), none⟩])
      "axis" 0 1 = some "joystick1right" := by
  have h := axis_mirror
      [⟨"input", some "joystick1left", some "axis", some 0, some (-1), none⟩]
      0 (-1) "joystick1left" "joystick1right" (by decide) (by decide)
  simpa using h

end ControlCenter
